import Mathlib

/-!
Shallow embedding of `src/tools/ingest_issue.py` (vocabulary-ingestion tool).

Python strings are modelled as Lean `String` (whose `data` is a `List Char`);
`str.strip` is modelled over the ASCII whitespace characters recognised by
`Char.isWhitespace`, and `str.lower` character-wise by `Char.toLower`
(faithful on ASCII, which is all the tool's comparisons rely on).
JSON records loaded from the store are dictionaries whose keys may be absent,
so each field of `Entry` is an `Option`; `dict.get(k, d)` is `Option.getD`.
The regex extraction of `parse_field` over `ISSUE_BODY` is modelled by an
abstract match function `body : String → Option String` giving, per label,
the captured group of the section headed by that label (or `none` when the
pattern does not match); the post-processing (strip, `_No response_`
collapse) is embedded literally.  File I/O is modelled by recording in a
`RunResult` whether the collection was loaded and what each sink was
written with (`none` = the file was never written).
-/

namespace Ingest

/-- The list `l` with leading and trailing whitespace removed: models Python `str.strip()`
on the character list of a string. -/
def stripList (l : List Char) : List Char :=
  ((l.dropWhile Char.isWhitespace).reverse.dropWhile Char.isWhitespace).reverse

/-- Python `s.strip()`. -/
def pyStrip (s : String) : String := ⟨stripList s.data⟩

/-- Python `s.lower()` (character-wise, faithful on ASCII). -/
def pyLower (s : String) : String := ⟨s.data.map Char.toLower⟩

/-- Split a character list at every character satisfying `p`; the separator
characters are dropped. Splitting the empty list yields `[[]]`, matching
Python `"".split(",") == [""]`. -/
def splitOnPred (p : Char → Bool) : List Char → List (List Char)
  | [] => [[]]
  | c :: rest =>
    let r := splitOnPred p rest
    if p c then [] :: r
    else
      match r with
      | [] => [[c]]
      | h :: t => (c :: h) :: t

/-- Python `s.split(",")`. -/
def splitComma (s : String) : List String :=
  (splitOnPred (fun c => c == ',') s.data).map (fun l => ⟨l⟩)

/-- Models `[l.strip() for l in raw.splitlines() if l.strip()]` (line 140 of the
source). `splitlines` is modelled as splitting on `\n` and `\r`; the
difference to Python (no trailing empty piece, `\r\n` as a single break)
is erased by the strip-and-drop-empties post-processing applied here. -/
def parse_examples (raw : String) : List String :=
  ((splitOnPred (fun c => c == '\n' || c == '\r') raw.data).map
    (fun l => (⟨l⟩ : String) |> pyStrip)).filter (fun l => l ≠ "")

/-- The loop body of `split_csv_like`: `seen` is the set of lowered keys
already emitted (as a list; only membership is used, as with Python's set). -/
def dedupeAux : List String → List String → List String
  | _, [] => []
  | seen, p :: rest =>
    if pyLower p ∈ seen then dedupeAux seen rest
    else p :: dedupeAux (pyLower p :: seen) rest

/-- Function `split_csv_like` from the source: split on commas, strip each part, drop
empties, then drop any part whose lowercase form was already seen. -/
def split_csv_like (s : String) : List String :=
  let parts := ((splitComma s).map pyStrip).filter (fun p => p ≠ "")
  dedupeAux [] parts

/-- Function `parse_field` from the source, given the abstract regex-match function
`body` for `ISSUE_BODY`: absent section yields `""`; otherwise the captured
group is stripped and the `_No response_` placeholder collapses to `""`. -/
def parse_field (body : String → Option String) (label : String) : String :=
  match body label with
  | none => ""
  | some g =>
    let val := pyStrip g
    if val = "_No response_" then "" else val

/-- Function `parse_any` from the source: first label whose field is non-blank wins. -/
def parse_any (body : String → Option String) : List String → String
  | [] => ""
  | lb :: rest =>
    let v := parse_field body lb
    if pyStrip v ≠ "" then v else parse_any body rest

/-- One record of the persisted collection (`data/words.json`). Every field
is optional because legacy records in the JSON store may lack keys. -/
structure Entry where
  word : Option String := none
  part_of_speech : Option String := none
  other_spelling : Option String := none
  pronunciation : Option String := none
  meaning_ja : Option String := none
  examples : Option (List String) := none
  synonyms : Option (List String) := none
  tags : Option (List String) := none
  notes : Option String := none
  mastery : Option Int := none
  last_reviewed : Option String := none
  created_at : Option String := none
  source_issue : Option String := none
deriving DecidableEq, Repr, Inhabited

/-- Function `find_index` from the source: index of the first entry whose stored word
matches the incoming word after strip-and-lower; `none` models `-1`. -/
def find_index (items : List Entry) (word : String) : Option Nat :=
  items.findIdx? (fun it => pyLower (pyStrip (it.word.getD "")) == pyLower (pyStrip word))

/-- The CSV column names, in the order `save_csv` writes them. -/
def fieldnames : List String :=
  ["word", "part_of_speech", "other_spelling", "pronunciation", "meaning_ja",
   "examples", "synonyms", "tags", "notes",
   "mastery", "last_reviewed", "created_at", "source_issue"]

/-- Python `sep.join(l)`. -/
def pyJoin (sep : String) (l : List String) : String := String.intercalate sep l

/-- The row `save_csv` writes for one entry: each missing key is rendered via
its `dict.get` default, list fields are joined with `" | "`, and the
`mastery` integer is rendered in decimal by the CSV writer. -/
def csvRow (it : Entry) : List String :=
  [it.word.getD "", it.part_of_speech.getD "", it.other_spelling.getD "",
   it.pronunciation.getD "", it.meaning_ja.getD "",
   pyJoin " | " (it.examples.getD []), pyJoin " | " (it.synonyms.getD []),
   pyJoin " | " (it.tags.getD []), it.notes.getD "",
   toString (it.mastery.getD 0), it.last_reviewed.getD "",
   it.created_at.getD "", it.source_issue.getD ""]

/-- Function `save_csv` from the source, as the table it writes: the header row
followed by one row per entry. -/
def save_csv (items : List Entry) : List (List String) :=
  fieldnames :: items.map csvRow

/-- The sort key of line 204: `x.get("word","").lower()`. -/
def sortKey (e : Entry) : String := pyLower (e.word.getD "")

/-- Code-point lexicographic `≤` on character lists: exactly Python's string
comparison. -/
def lexLE : List Char → List Char → Bool
  | [], _ => true
  | _ :: _, [] => false
  | c :: cs, d :: ds => if c = d then lexLE cs ds else decide (c < d)

/-- The ordering by which line 204 sorts: comparison of the lowered stored
words (Python compares the sort keys with string `<=`). -/
def entryLE (a b : Entry) : Prop := lexLE (sortKey a).data (sortKey b).data = true

instance : DecidableRel entryLE := fun a b =>
  inferInstanceAs (Decidable (lexLE (sortKey a).data (sortKey b).data = true))

instance : IsTotal Entry entryLE :=
  ⟨fun a b => by
    unfold entryLE
    generalize (sortKey a).data = x
    generalize (sortKey b).data = y
    induction x generalizing y with
    | nil => exact Or.inl rfl
    | cons c cs ih =>
      cases y with
      | nil => exact Or.inr rfl
      | cons d ds =>
        simp only [lexLE]
        by_cases hcd : c = d
        · subst hcd
          simpa only [if_pos rfl] using ih ds
        · rcases lt_or_gt_of_ne hcd with h | h
          · exact Or.inl (by simp [if_neg hcd, h])
          · exact Or.inr (by simp [if_neg (Ne.symm hcd), h])⟩

instance : IsTrans Entry entryLE :=
  ⟨fun a b c hab hbc => by
    unfold entryLE at hab hbc ⊢
    revert hab hbc
    generalize (sortKey a).data = x
    generalize (sortKey b).data = y
    generalize (sortKey c).data = z
    induction x generalizing y z with
    | nil => intro _ _; rfl
    | cons cx xs ih =>
      cases y with
      | nil => intro hab _; exact absurd hab (by simp [lexLE])
      | cons cy ys =>
        cases z with
        | nil => intro _ hbc; exact absurd hbc (by simp [lexLE])
        | cons cz zs =>
          simp only [lexLE]
          by_cases hxy : cx = cy
          · subst hxy
            by_cases hyz : cx = cz
            · subst hyz
              simp only [if_pos rfl]
              exact ih ys zs
            · simp only [if_pos rfl, if_neg hyz]
              exact fun _ h => h
          · by_cases hyz : cy = cz
            · subst hyz
              simp only [if_neg hxy, if_pos rfl]
              exact fun h _ => h
            · simp only [if_neg hxy, if_neg hyz, decide_eq_true_eq]
              intro h1 h2
              have hxz : cx < cz := lt_trans h1 h2
              rw [if_neg (ne_of_lt hxz)]
              simpa using hxz⟩

/-- Models `items.sort(key=lambda x: x.get("word","").lower())`: a stable sort by the
lowered word (Python's sort and `List.insertionSort` are both stable, so
they agree exactly). -/
def sortItems (items : List Entry) : List Entry :=
  items.insertionSort entryLE

/-- The fresh entry built on the creation path (lines 154-168). -/
def new_entry (word pos other pron meaning : String)
    (examples synonyms tags : List String) (notes now_iso source : String) : Entry :=
  { word := some word
    part_of_speech := some pos
    other_spelling := some other
    pronunciation := some pron
    meaning_ja := some meaning
    examples := some examples
    synonyms := some synonyms
    tags := some tags
    notes := some notes
    mastery := some 0
    last_reviewed := some ""
    created_at := some now_iso
    source_issue := some source }

/-- The in-place update block of the update path (lines 172-199): scalar
fields overwritten only when the incoming value is non-empty, list fields
replaced only when the raw text is non-blank, `created_at` backfilled only
when missing or empty, `source_issue` always overwritten. -/
def update_entry (it : Entry) (word pos other pron meaning : String)
    (examples_raw syn_raw tags_raw : String)
    (examples synonyms tags : List String)
    (notes now_iso source : String) : Entry :=
  { it with
    word := some word
    part_of_speech := if pos ≠ "" then some pos else it.part_of_speech
    other_spelling := if other ≠ "" then some other else it.other_spelling
    pronunciation := if pron ≠ "" then some pron else it.pronunciation
    meaning_ja := if meaning ≠ "" then some meaning else it.meaning_ja
    examples := if pyStrip examples_raw ≠ "" then some examples else it.examples
    synonyms := if pyStrip syn_raw ≠ "" then some synonyms else it.synonyms
    tags := if pyStrip tags_raw ≠ "" then some tags else it.tags
    notes := if notes ≠ "" then some notes else it.notes
    created_at := some (if it.created_at.getD "" ≠ "" then it.created_at.getD "" else now_iso)
    source_issue := some source }

/-- The `word` value extracted in `main` (lines 92-95): first matching label, stripped. -/
def extract_word (body : String → Option String) : String :=
  pyStrip (parse_any body ["Word", "Word (must match existing)"])

/-- Value `incoming_pos` of `main`. -/
def extract_pos (body : String → Option String) : String :=
  pyStrip (parse_any body ["Part of speech", "Part of Speech"])

/-- Value `incoming_other` of `main`. -/
def extract_other (body : String → Option String) : String :=
  pyStrip (parse_any body
    ["Other spelling (UK/US if different)", "Other spelling (if different)", "Other spelling"])

/-- Value `incoming_pron` of `main`. -/
def extract_pron (body : String → Option String) : String :=
  pyStrip (parse_any body ["Pronunciation (IPA etc.)", "Pronunciation"])

/-- Value `incoming_meaning` of `main`. -/
def extract_meaning (body : String → Option String) : String :=
  pyStrip (parse_any body ["Meaning (Japanese)", "Meaning (JP)", "Meaning"])

/-- Value `incoming_examples_raw` of `main` (not stripped at assignment). -/
def extract_examples_raw (body : String → Option String) : String :=
  parse_any body ["Examples (one per line)", "Examples"]

/-- Value `incoming_syn_raw` of `main`. -/
def extract_syn_raw (body : String → Option String) : String :=
  parse_any body ["Synonyms (comma-separated)", "Synonyms"]

/-- Value `incoming_tags_raw` of `main`. -/
def extract_tags_raw (body : String → Option String) : String :=
  parse_any body ["Tags (comma-separated)", "Tags"]

/-- Value `incoming_notes` of `main`. -/
def extract_notes (body : String → Option String) : String :=
  pyStrip (parse_any body ["Notes"])

/-- Value `incoming_examples` of `main` (line 140). -/
def incoming_examples (body : String → Option String) : List String :=
  if pyStrip (extract_examples_raw body) ≠ "" then parse_examples (extract_examples_raw body) else []

/-- Value `incoming_synonyms` of `main` (line 141). -/
def incoming_synonyms (body : String → Option String) : List String :=
  if pyStrip (extract_syn_raw body) ≠ "" then split_csv_like (extract_syn_raw body) else []

/-- Value `incoming_tags` of `main` (line 142). -/
def incoming_tags (body : String → Option String) : List String :=
  if pyStrip (extract_tags_raw body) ≠ "" then split_csv_like (extract_tags_raw body) else []

/-- The entry `main` appends on the creation path (lines 154-168), with all
components extracted from the submission body. -/
def incoming_entry (body : String → Option String) (now_iso source : String) : Entry :=
  new_entry (extract_word body) (extract_pos body) (extract_other body) (extract_pron body)
    (extract_meaning body) (incoming_examples body) (incoming_synonyms body) (incoming_tags body)
    (extract_notes body) now_iso source

/-- The entry `main` stores on the update path (lines 172-199), with all
components extracted from the submission body. -/
def updated_entry (it : Entry) (body : String → Option String) (now_iso source : String) : Entry :=
  update_entry it (extract_word body) (extract_pos body) (extract_other body) (extract_pron body)
    (extract_meaning body) (extract_examples_raw body) (extract_syn_raw body)
    (extract_tags_raw body) (incoming_examples body) (incoming_synonyms body) (incoming_tags body)
    (extract_notes body) now_iso source

/-- The normalized key under which an entry is matched by `find_index`:
its stored word, stripped and lowered. -/
def entryKey (e : Entry) : String := pyLower (pyStrip (e.word.getD ""))

/-- The observable outcome of one run of `main`: the fatal message (if any),
whether `load_json` was reached, what each sink was written with (`none`
means the file was never written), and the status token printed. -/
structure RunResult where
  error : Option String
  loaded : Bool
  savedJson : Option (List Entry)
  savedCsv : Option (List (List String))
  status : Option String
deriving DecidableEq, Repr

/-- Function `main` from the source. `body` abstracts the regex extraction from
`ISSUE_BODY`; `items` is the collection `load_json` returns; `now_iso` is
`datetime.now(timezone.utc).isoformat()` and `source` is
`ISSUE_URL or f"#{ISSUE_NUMBER}"`. -/
def mainRun (body : String → Option String) (items : List Entry)
    (now_iso source : String) : RunResult :=
  let word := extract_word body
  if word = "" then
    { error := some "Word is required but missing.", loaded := false,
      savedJson := none, savedCsv := none, status := none }
  else
    match find_index items word with
    | none =>
      if extract_meaning body = "" then
        { error := some "Meaning (Japanese) is required for a new word.", loaded := true,
          savedJson := none, savedCsv := none, status := none }
      else
        let items2 := sortItems (items ++ [incoming_entry body now_iso source])
        { error := none, loaded := true,
          savedJson := some items2, savedCsv := some (save_csv items2), status := some "added" }
    | some idx =>
      let items2 := sortItems (items.set idx (updated_entry (items.getD idx default) body now_iso source))
      { error := none, loaded := true,
        savedJson := some items2, savedCsv := some (save_csv items2), status := some "updated" }

/-! ### Helper lemmas about stripping -/

theorem stripList_eq_rdropWhile (l : List Char) :
    stripList l = List.rdropWhile Char.isWhitespace (l.dropWhile Char.isWhitespace) := rfl

theorem dropWhile_stripList (l : List Char) :
    (stripList l).dropWhile Char.isWhitespace = stripList l := by
  cases hr : stripList l with
  | nil => rfl
  | cons a r' =>
    have ht := List.rdropWhile_prefix (p := Char.isWhitespace)
      (l := List.dropWhile Char.isWhitespace l)
    rw [← stripList_eq_rdropWhile, hr] at ht
    obtain ⟨t, ht⟩ := ht
    have hm : List.dropWhile Char.isWhitespace l = a :: (r' ++ t) := by
      rw [← ht, List.cons_append]
    have hws := List.head?_dropWhile_not Char.isWhitespace l
    rw [hm] at hws
    simp only [List.head?_cons] at hws
    exact List.dropWhile_cons_of_neg (by simp [hws])

theorem rdropWhile_stripList (l : List Char) :
    List.rdropWhile Char.isWhitespace (stripList l) = stripList l := by
  rw [stripList_eq_rdropWhile, List.rdropWhile_idempotent]

theorem stripList_idem (l : List Char) : stripList (stripList l) = stripList l := by
  conv_lhs => rw [stripList_eq_rdropWhile (stripList l)]
  rw [dropWhile_stripList, rdropWhile_stripList]

theorem pyStrip_idem (s : String) : pyStrip (pyStrip s) = pyStrip s :=
  congrArg String.mk (stripList_idem s.data)

theorem pyStrip_empty : pyStrip "" = "" := rfl

/-! ### Helper lemmas about `dedupeAux` -/

theorem dedupeAux_sublist (seen : List String) (l : List String) :
    (dedupeAux seen l).Sublist l := by
  induction l generalizing seen with
  | nil => simp [dedupeAux]
  | cons p rest ih =>
    simp only [dedupeAux]
    split
    · exact (ih seen).trans (List.sublist_cons_self _ _)
    · exact (ih _).cons₂ _

theorem dedupeAux_not_in_seen (seen : List String) (l : List String) :
    ∀ q ∈ dedupeAux seen l, pyLower q ∉ seen := by
  induction l generalizing seen with
  | nil => simp [dedupeAux]
  | cons p rest ih =>
    intro q hq
    simp only [dedupeAux] at hq
    split at hq
    · exact ih seen q hq
    · rcases List.mem_cons.mp hq with rfl | hmem
      · assumption
      · intro hin
        exact ih _ q hmem (List.mem_cons_of_mem _ hin)

theorem dedupeAux_pairwise (seen : List String) (l : List String) :
    (dedupeAux seen l).Pairwise (fun a b => pyLower a ≠ pyLower b) := by
  induction l generalizing seen with
  | nil => simp [dedupeAux]
  | cons p rest ih =>
    simp only [dedupeAux]
    split
    · exact ih seen
    · refine List.Pairwise.cons ?_ (ih _)
      intro b hb heq
      exact dedupeAux_not_in_seen _ _ b hb (heq ▸ List.mem_cons_self _ _)

theorem dedupeAux_complete (seen : List String) (l : List String) :
    ∀ p ∈ l, pyLower p ∉ seen → ∃ q ∈ dedupeAux seen l, pyLower q = pyLower p := by
  induction l generalizing seen with
  | nil => simp
  | cons a rest ih =>
    intro p hp hseen
    simp only [dedupeAux]
    split
    · rcases List.mem_cons.mp hp with rfl | hmem
      · exact absurd (by assumption) hseen
      · exact ih seen p hmem hseen
    · rcases List.mem_cons.mp hp with rfl | hmem
      · exact ⟨p, List.mem_cons_self _ _, rfl⟩
      · by_cases hk : pyLower p = pyLower a
        · exact ⟨a, List.mem_cons_self _ _, hk.symm⟩
        · obtain ⟨q, hq, hql⟩ := ih (pyLower a :: seen) p hmem (by
            simp only [List.mem_cons, not_or]
            exact ⟨hk, hseen⟩)
          exact ⟨q, List.mem_cons_of_mem _ hq, hql⟩

/-! ### Helper lemmas about field extraction and sorting -/

theorem parse_field_eq_empty {body : String → Option String} {lb : String}
    (h : body lb = none ∨ pyStrip ((body lb).getD "") = "" ∨
      pyStrip ((body lb).getD "") = "_No response_") :
    parse_field body lb = "" := by
  cases hb : body lb with
  | none => simp [parse_field, hb]
  | some g =>
    rw [hb] at h
    simp only [Option.getD_some, reduceCtorEq, false_or] at h
    rcases h with h | h
    · simp [parse_field, hb, h]
    · simp [parse_field, hb, h]

theorem parse_any_eq_empty {body : String → Option String} {labels : List String}
    (h : ∀ lb ∈ labels, parse_field body lb = "") : parse_any body labels = "" := by
  induction labels with
  | nil => rfl
  | cons lb rest ih =>
    simp only [parse_any, h lb (List.mem_cons_self _ _), pyStrip_empty, ne_eq,
      not_true_eq_false, ite_false]
    exact ih (fun x hx => h x (List.mem_cons_of_mem _ hx))

theorem sortItems_perm (l : List Entry) : (sortItems l).Perm l := List.perm_insertionSort _ l

theorem sortItems_sorted (l : List Entry) : (sortItems l).Pairwise entryLE :=
  List.sorted_insertionSort entryLE l

theorem mainRun_savedJson_shape (body : String → Option String) (items : List Entry)
    (now_iso source : String) :
    (mainRun body items now_iso source).savedJson = none ∨
    ∃ l, (mainRun body items now_iso source).savedJson = some (sortItems l) ∧
      (mainRun body items now_iso source).savedCsv = some (save_csv (sortItems l)) := by
  unfold mainRun
  dsimp only
  split
  · exact Or.inl rfl
  · split
    · split
      · exact Or.inl rfl
      · exact Or.inr ⟨_, rfl, rfl⟩
    · exact Or.inr ⟨_, rfl, rfl⟩

theorem find_index_none_iff (items : List Entry) (w : String) :
    find_index items w = none ↔ ∀ e ∈ items, entryKey e ≠ pyLower (pyStrip w) := by
  unfold find_index
  rw [List.findIdx?_eq_none_iff]
  simp [entryKey]

theorem find_index_some {items : List Entry} {w : String} {idx : Nat}
    (h : find_index items w = some idx) :
    ∃ hlt : idx < items.length, entryKey (items.get ⟨idx, hlt⟩) = pyLower (pyStrip w) := by
  unfold find_index at h
  rw [List.findIdx?_eq_some_iff_getElem] at h
  obtain ⟨hlt, hp, _⟩ := h
  exact ⟨hlt, by simpa [entryKey] using hp⟩

theorem mainRun_update_shape (body : String → Option String) (items : List Entry)
    (now_iso source : String) (idx : Nat)
    (hw : extract_word body ≠ "") (h : find_index items (extract_word body) = some idx) :
    mainRun body items now_iso source =
      { error := none, loaded := true,
        savedJson := some (sortItems
          (items.set idx (updated_entry (items.getD idx default) body now_iso source))),
        savedCsv := some (save_csv (sortItems
          (items.set idx (updated_entry (items.getD idx default) body now_iso source)))),
        status := some "updated" } := by
  unfold mainRun
  rw [if_neg hw, h]

theorem mainRun_added_shape (body : String → Option String) (items : List Entry)
    (now_iso source : String)
    (hw : extract_word body ≠ "") (h : find_index items (extract_word body) = none)
    (hm : extract_meaning body ≠ "") :
    mainRun body items now_iso source =
      { error := none, loaded := true,
        savedJson := some (sortItems (items ++ [incoming_entry body now_iso source])),
        savedCsv := some (save_csv (sortItems (items ++ [incoming_entry body now_iso source]))),
        status := some "added" } := by
  unfold mainRun
  rw [if_neg hw, h]
  exact if_neg hm

theorem countP_set_eq_one {α : Type} (p : α → Bool) (l : List α) :
    ∀ (i : Nat), i < l.length → ∀ a : α, p a = true →
      (∀ j, (hj : j < l.length) → j ≠ i → p (l.get ⟨j, hj⟩) = false) →
      (l.set i a).countP p = 1 := by
  induction l with
  | nil => intro i hi; simp at hi
  | cons x xs ih =>
    intro i hi a hpa hother
    cases i with
    | zero =>
      rw [List.set_cons_zero, List.countP_cons_of_pos _ _ hpa]
      have hz : xs.countP p = 0 := by
        rw [List.countP_eq_zero]
        intro b hb
        obtain ⟨⟨j, hj⟩, rfl⟩ := List.mem_iff_get.mp hb
        have := hother (j + 1) (by simpa using hj) (by simp)
        simpa using this
      omega
    | succ n =>
      rw [List.set_cons_succ]
      have hx : p x = false := by
        have := hother 0 (by simp) (by simp)
        simpa using this
      rw [List.countP_cons_of_neg _ _ (by simp [hx])]
      refine ih n (by simpa using hi) a hpa ?_
      intro j hj hne
      have := hother (j + 1) (by simpa using hj) (by simpa using hne)
      simpa using this

theorem eq_of_mem_set_of_unique {α : Type} (p : α → Bool) (l : List α) (i : Nat) (a : α)
    (hother : ∀ j, (hj : j < l.length) → j ≠ i → p (l.get ⟨j, hj⟩) = false) :
    ∀ e ∈ l.set i a, p e = true → e = a := by
  intro e he hpe
  obtain ⟨j, hj, hget⟩ := List.mem_iff_getElem.mp he
  rw [List.length_set] at hj
  by_cases hji : j = i
  · subst hji
    rw [List.getElem_set_self hj] at hget
    exact hget.symm
  · rw [List.getElem_set_ne (fun hh => hji hh.symm)] at hget
    have := hother j hj hji
    rw [List.get_eq_getElem] at this
    rw [hget] at this
    exact absurd hpe (by simp [this])

theorem two_le_countP {α : Type} (p : α → Bool) (l : List α) :
    ∀ (i j : Nat) (hi : i < l.length) (hj : j < l.length), i ≠ j →
      p (l.get ⟨i, hi⟩) = true → p (l.get ⟨j, hj⟩) = true → 2 ≤ l.countP p := by
  induction l with
  | nil => intro i j hi; simp at hi
  | cons x xs ih =>
    intro i j hi hj hij hpi hpj
    cases i with
    | zero =>
      cases j with
      | zero => exact absurd rfl hij
      | succ m =>
        rw [List.countP_cons_of_pos _ _ (by simpa using hpi)]
        have hm : m < xs.length := by simpa using hj
        have : 0 < xs.countP p :=
          List.countP_pos_iff.mpr ⟨xs.get ⟨m, hm⟩, List.get_mem _ _ _, by simpa using hpj⟩
        omega
    | succ n =>
      cases j with
      | zero =>
        rw [List.countP_cons_of_pos _ _ (by simpa using hpj)]
        have hn : n < xs.length := by simpa using hi
        have : 0 < xs.countP p :=
          List.countP_pos_iff.mpr ⟨xs.get ⟨n, hn⟩, List.get_mem _ _ _, by simpa using hpi⟩
        omega
      | succ m =>
        have h2 : 2 ≤ xs.countP p := by
          refine ih n m (by simpa using hi) (by simpa using hj) ?_
            (by simpa using hpi) (by simpa using hpj)
          · intro hnm
            exact hij (by simp [hnm])
        rw [List.countP_cons]
        omega

theorem extract_word_stripped (body : String → Option String) :
    pyStrip (extract_word body) = extract_word body :=
  pyStrip_idem _

theorem updated_entry_word (it : Entry) (body : String → Option String) (n s : String) :
    (updated_entry it body n s).word = some (extract_word body) := rfl

theorem entryKey_updated (it : Entry) (body : String → Option String) (n s : String) :
    entryKey (updated_entry it body n s) = pyLower (extract_word body) := by
  show pyLower (pyStrip ((updated_entry it body n s).word.getD "")) = _
  rw [updated_entry_word, Option.getD_some, extract_word_stripped]

theorem entryKey_incoming (body : String → Option String) (n s : String) :
    entryKey (incoming_entry body n s) = pyLower (extract_word body) := by
  show pyLower (pyStrip ((incoming_entry body n s).word.getD "")) = _
  rw [show (incoming_entry body n s).word = some (extract_word body) from rfl,
    Option.getD_some, extract_word_stripped]

theorem updated_entry_incoming (body : String → Option String)
    (now1 source1 now2 source2 : String) (hnow : now1 ≠ "") :
    updated_entry (incoming_entry body now1 source1) body now2 source2 =
      { incoming_entry body now1 source1 with source_issue := some source2 } := by
  unfold updated_entry update_entry incoming_entry new_entry
  simp [hnow]

/-! ### Claim theorems -/

/-- C7: for every input whose extracted Word field is empty — each probed
label's section is absent, whitespace-only, or the `_No response_`
placeholder — the run aborts with the fatal descriptive error before the
persisted collection is loaded (`loaded = false`) and before any write is
attempted (both sinks `none`). -/
theorem word_missing_aborts_before_load (body : String → Option String) (items : List Entry)
    (now_iso source : String)
    (h : ∀ lb ∈ ["Word", "Word (must match existing)"],
      body lb = none ∨ pyStrip ((body lb).getD "") = "" ∨
        pyStrip ((body lb).getD "") = "_No response_") :
    mainRun body items now_iso source =
      { error := some "Word is required but missing.", loaded := false,
        savedJson := none, savedCsv := none, status := none } := by
  have hw : extract_word body = "" := by
    unfold extract_word
    rw [parse_any_eq_empty (fun lb hlb => parse_field_eq_empty (h lb hlb)), pyStrip_empty]
  simp [mainRun, hw]

/-- Witness for C7 at a concrete input (all sections absent). -/
theorem word_missing_aborts_before_load_witness :
    mainRun (fun _ => none) [] "2024-01-01T00:00:00+00:00" "#1" =
      { error := some "Word is required but missing.", loaded := false,
        savedJson := none, savedCsv := none, status := none } :=
  word_missing_aborts_before_load (fun _ => none) [] "2024-01-01T00:00:00+00:00" "#1"
    (fun _ _ => Or.inl rfl)

/-- C1: when the incoming word has no case-insensitive match in the loaded
collection and the extracted Meaning field is empty, the run fails with a
fatal user-visible error and nothing is persisted: neither sink is written
(so the stored collection is unchanged) and no status is reported. -/
theorem new_word_missing_meaning_aborts (body : String → Option String) (items : List Entry)
    (now_iso source : String)
    (hidx : find_index items (extract_word body) = none)
    (hmean : extract_meaning body = "") :
    (mainRun body items now_iso source).error.isSome = true ∧
    (mainRun body items now_iso source).savedJson = none ∧
    (mainRun body items now_iso source).savedCsv = none ∧
    (mainRun body items now_iso source).status = none := by
  by_cases hw : extract_word body = ""
  · simp [mainRun, hw]
  · simp [mainRun, hw, hidx, hmean]

/-- Witness for C1 at a concrete input (word present, no meaning, empty
collection). -/
theorem new_word_missing_meaning_aborts_witness :
    (mainRun (fun lb => if lb = "Word" then some "cat" else none) []
      "2024-01-01T00:00:00+00:00" "#1").error.isSome = true ∧
    (mainRun (fun lb => if lb = "Word" then some "cat" else none) []
      "2024-01-01T00:00:00+00:00" "#1").savedJson = none ∧
    (mainRun (fun lb => if lb = "Word" then some "cat" else none) []
      "2024-01-01T00:00:00+00:00" "#1").savedCsv = none ∧
    (mainRun (fun lb => if lb = "Word" then some "cat" else none) []
      "2024-01-01T00:00:00+00:00" "#1").status = none :=
  new_word_missing_meaning_aborts _ [] "2024-01-01T00:00:00+00:00" "#1" rfl rfl

/-- C2: after every successful run (one that writes the structured sink) the
persisted collection's `word` values are non-decreasing under
case-insensitive ordering, and the tabular sink is written from the same
sorted collection. -/
theorem saved_collection_sorted (body : String → Option String) (items : List Entry)
    (now_iso source : String) (out : List Entry)
    (h : (mainRun body items now_iso source).savedJson = some out) :
    out.Pairwise entryLE ∧
    (mainRun body items now_iso source).savedCsv = some (save_csv out) := by
  rcases mainRun_savedJson_shape body items now_iso source with h0 | ⟨l, hj, hc⟩
  · rw [h0] at h
    exact absurd h (by simp)
  · rw [hj] at h
    injection h with h
    subst h
    exact ⟨sortItems_sorted l, hc⟩

/-- Witness for C2 at a concrete successful run (a new word added to an empty
collection). -/
theorem saved_collection_sorted_witness :
    [incoming_entry
        (fun lb => if lb = "Word" then some "cat" else
          if lb = "Meaning (Japanese)" then some "neko" else none)
        "2024-01-01T00:00:00+00:00" "#1"].Pairwise entryLE ∧
    (mainRun
        (fun lb => if lb = "Word" then some "cat" else
          if lb = "Meaning (Japanese)" then some "neko" else none)
        [] "2024-01-01T00:00:00+00:00" "#1").savedCsv =
      some (save_csv [incoming_entry
        (fun lb => if lb = "Word" then some "cat" else
          if lb = "Meaning (Japanese)" then some "neko" else none)
        "2024-01-01T00:00:00+00:00" "#1"]) :=
  saved_collection_sorted _ [] "2024-01-01T00:00:00+00:00" "#1" _ (by decide)

/-- C8: the comma-separated list parser used for synonyms and tags splits on
commas, trims each part, drops empties, and de-duplicates case-insensitively
while preserving first-seen casing and order (the result is a sublist of the
trimmed non-empty parts, pairwise distinct under lowering, and covers every
part's lowered form); in particular `"Run, jog, run, Jog"` parses to
`["Run", "jog"]`. -/
theorem split_csv_like_dedups :
    (∀ s : String,
      (split_csv_like s).Sublist (((splitComma s).map pyStrip).filter (fun p => p ≠ "")) ∧
      (split_csv_like s).Pairwise (fun a b => pyLower a ≠ pyLower b) ∧
      ((split_csv_like s).map pyLower).toFinset
        = ((((splitComma s).map pyStrip).filter (fun p => p ≠ "")).map pyLower).toFinset) ∧
    split_csv_like "Run, jog, run, Jog" = ["Run", "jog"] := by
  refine ⟨fun s => ⟨dedupeAux_sublist _ _, dedupeAux_pairwise _ _, ?_⟩, by decide⟩
  ext x
  simp only [List.mem_toFinset, List.mem_map]
  constructor
  · rintro ⟨q, hq, rfl⟩
    exact ⟨q, (dedupeAux_sublist _ _).subset hq, rfl⟩
  · rintro ⟨p, hp, rfl⟩
    obtain ⟨q, hq, hql⟩ := dedupeAux_complete [] _ p hp (by simp)
    exact ⟨q, hq, hql⟩

/-- C9: every list value (examples, synonyms, tags) produced from the current
submission contains only non-empty strings equal to their own trimmed form. -/
theorem list_values_trimmed_nonempty :
    (∀ s : String, ∀ e ∈ split_csv_like s, pyStrip e = e ∧ e ≠ "") ∧
    (∀ s : String, ∀ e ∈ parse_examples s, pyStrip e = e ∧ e ≠ "") := by
  constructor
  · intro s e he
    have hmem := (dedupeAux_sublist [] _).subset he
    simp only [List.mem_filter, List.mem_map, decide_not] at hmem
    obtain ⟨⟨p, _, rfl⟩, hne⟩ := hmem
    exact ⟨pyStrip_idem p, by simpa using hne⟩
  · intro s e he
    simp only [parse_examples, List.mem_filter, List.mem_map, decide_not] at he
    obtain ⟨⟨l, _, rfl⟩, hne⟩ := he
    exact ⟨pyStrip_idem _, by simpa using hne⟩

/-- Witness for C9 at concrete inputs. -/
theorem list_values_trimmed_nonempty_witness :
    (pyStrip "Run" = "Run" ∧ "Run" ≠ "") ∧ (pyStrip "I run." = "I run." ∧ "I run." ≠ "") :=
  ⟨list_values_trimmed_nonempty.1 "Run, jog" "Run" (by decide),
   list_values_trimmed_nonempty.2 "I run.\nHe ran." "I run." (by decide)⟩

/-- C6 counterexample: the tabular export's header row is not the claimed
column list — its fifth column is `meaning_ja`, not `meaning`. -/
theorem header_row_counterexample :
    (save_csv []).head? ≠
      some ["word", "part_of_speech", "other_spelling", "pronunciation", "meaning",
        "examples", "synonyms", "tags", "notes",
        "mastery", "last_reviewed", "created_at", "source_issue"] := by decide

/-- C6 (amended): the tabular export begins with exactly the header row whose
columns are, in order: word, part_of_speech, other_spelling, pronunciation,
meaning_ja, examples, synonyms, tags, notes, mastery, last_reviewed,
created_at, source_issue. -/
theorem header_row_exact (items : List Entry) :
    (save_csv items).head? = some fieldnames ∧
    fieldnames = ["word", "part_of_speech", "other_spelling", "pronunciation", "meaning_ja",
      "examples", "synonyms", "tags", "notes",
      "mastery", "last_reviewed", "created_at", "source_issue"] := ⟨rfl, rfl⟩

/-- C10: the tabular-sink row writer is total over malformed legacy records:
every entry yields a complete row (one cell per column), and each missing
field is rendered with its default (empty string for text and list fields,
`0` for mastery). -/
theorem csv_row_total_defaults (e : Entry) :
    (csvRow e).length = fieldnames.length ∧
    (e.word = none → (csvRow e).getD 0 "-" = "") ∧
    (e.part_of_speech = none → (csvRow e).getD 1 "-" = "") ∧
    (e.other_spelling = none → (csvRow e).getD 2 "-" = "") ∧
    (e.pronunciation = none → (csvRow e).getD 3 "-" = "") ∧
    (e.meaning_ja = none → (csvRow e).getD 4 "-" = "") ∧
    (e.examples = none → (csvRow e).getD 5 "-" = "") ∧
    (e.synonyms = none → (csvRow e).getD 6 "-" = "") ∧
    (e.tags = none → (csvRow e).getD 7 "-" = "") ∧
    (e.notes = none → (csvRow e).getD 8 "-" = "") ∧
    (e.mastery = none → (csvRow e).getD 9 "-" = "0") ∧
    (e.last_reviewed = none → (csvRow e).getD 10 "-" = "") ∧
    (e.created_at = none → (csvRow e).getD 11 "-" = "") ∧
    (e.source_issue = none → (csvRow e).getD 12 "-" = "") := by
  refine ⟨rfl, ?_, ?_, ?_, ?_, ?_, ?_, ?_, ?_, ?_, ?_, ?_, ?_, ?_⟩ <;>
    · intro h
      simp only [csvRow, h]
      rfl

/-- Witness for C10: the wholly key-less record still yields a complete row,
with every cell defaulted. -/
theorem csv_row_total_defaults_witness :
    (csvRow {}).length = fieldnames.length ∧
    (csvRow {}).getD 0 "-" = "" ∧ (csvRow {}).getD 1 "-" = "" ∧
    (csvRow {}).getD 2 "-" = "" ∧ (csvRow {}).getD 3 "-" = "" ∧
    (csvRow {}).getD 4 "-" = "" ∧ (csvRow {}).getD 5 "-" = "" ∧
    (csvRow {}).getD 6 "-" = "" ∧ (csvRow {}).getD 7 "-" = "" ∧
    (csvRow {}).getD 8 "-" = "" ∧ (csvRow {}).getD 9 "-" = "0" ∧
    (csvRow {}).getD 10 "-" = "" ∧ (csvRow {}).getD 11 "-" = "" ∧
    (csvRow {}).getD 12 "-" = "" := by
  have t := csv_row_total_defaults {}
  exact ⟨t.1, t.2.1 rfl, t.2.2.1 rfl, t.2.2.2.1 rfl, t.2.2.2.2.1 rfl, t.2.2.2.2.2.1 rfl,
    t.2.2.2.2.2.2.1 rfl, t.2.2.2.2.2.2.2.1 rfl, t.2.2.2.2.2.2.2.2.1 rfl,
    t.2.2.2.2.2.2.2.2.2.1 rfl, t.2.2.2.2.2.2.2.2.2.2.1 rfl,
    t.2.2.2.2.2.2.2.2.2.2.2.1 rfl, t.2.2.2.2.2.2.2.2.2.2.2.2.1 rfl,
    t.2.2.2.2.2.2.2.2.2.2.2.2.2 rfl⟩

/-- C3: for a collection with at most one entry per case-insensitive word,
submitting a word that case-insensitively matches an existing entry updates
that record rather than creating a new one: the run reports "updated", the
persisted collection still has exactly one entry under that key, and that
entry's stored `word` is the most recently submitted (trimmed) casing. -/
theorem ci_match_updates_single_record (body : String → Option String) (items : List Entry)
    (now_iso source : String)
    (huniq : items.Pairwise (fun a b => entryKey a ≠ entryKey b))
    (hw : extract_word body ≠ "")
    (hmatch : ∃ e ∈ items, entryKey e = pyLower (extract_word body)) :
    (mainRun body items now_iso source).status = some "updated" ∧
    ∀ out, (mainRun body items now_iso source).savedJson = some out →
      out.countP (fun e => entryKey e == pyLower (extract_word body)) = 1 ∧
      out.all (fun e => !(entryKey e == pyLower (extract_word body)) ||
        (e.word == some (extract_word body))) = true := by
  cases hfi : find_index items (extract_word body) with
  | none =>
    rw [find_index_none_iff, extract_word_stripped] at hfi
    obtain ⟨e, he, hk⟩ := hmatch
    exact absurd hk (hfi e he)
  | some idx =>
    obtain ⟨hlt, hkey⟩ := find_index_some hfi
    rw [extract_word_stripped] at hkey
    have hmain := mainRun_update_shape body items now_iso source idx hw hfi
    rw [hmain]
    refine ⟨rfl, ?_⟩
    intro out hout
    simp only [Option.some.injEq] at hout
    subst hout
    rw [List.pairwise_iff_getElem] at huniq
    have hother : ∀ j, (hj : j < items.length) → j ≠ idx →
        (fun e => entryKey e == pyLower (extract_word body)) (items.get ⟨j, hj⟩) = false := by
      intro j hj hne
      simp only [beq_eq_false_iff_ne, ne_eq, List.get_eq_getElem]
      rcases Nat.lt_or_ge j idx with h | h
      · have hx := huniq j idx hj hlt h
        rw [List.get_eq_getElem] at hkey
        rw [hkey] at hx
        exact hx
      · have hx := huniq idx j hlt hj (lt_of_le_of_ne h (fun hh => hne hh.symm))
        rw [List.get_eq_getElem] at hkey
        rw [hkey] at hx
        exact fun hh => hx hh.symm
    have hcount := countP_set_eq_one
      (fun e => entryKey e == pyLower (extract_word body)) items idx hlt
      (updated_entry (items.getD idx default) body now_iso source)
      (by simp [entryKey_updated]) hother
    have huniqmem := eq_of_mem_set_of_unique
      (fun e => entryKey e == pyLower (extract_word body)) items idx
      (updated_entry (items.getD idx default) body now_iso source) hother
    constructor
    · rw [(sortItems_perm _).countP_eq]
      exact hcount
    · rw [List.all_eq_true]
      intro e he
      have he2 : e ∈ items.set idx (updated_entry (items.getD idx default) body now_iso source) :=
        (sortItems_perm _).mem_iff.mp he
      by_cases hk : entryKey e = pyLower (extract_word body)
      · have := huniqmem e he2 (by simp [hk])
        rw [this, updated_entry_word]
        simp
      · simp [hk]

/-- Witness for C3: a collection holding "cat" receives a submission for
"Cat"; the record is updated in place and keeps the new casing. -/
theorem ci_match_updates_single_record_witness :
    (mainRun (fun lb => if lb = "Word" then some "Cat" else none)
      [{ word := some "cat", meaning_ja := some "neko" }]
      "2024-02-02T00:00:00+00:00" "#2").status = some "updated" ∧
    ((sortItems ([{ word := some "cat", meaning_ja := some "neko" }].set 0
        (updated_entry ([{ word := some "cat", meaning_ja := some "neko" }].getD 0 default)
          (fun lb => if lb = "Word" then some "Cat" else none)
          "2024-02-02T00:00:00+00:00" "#2"))).countP
      (fun e => entryKey e ==
        pyLower (extract_word (fun lb => if lb = "Word" then some "Cat" else none))) = 1 ∧
    (sortItems ([{ word := some "cat", meaning_ja := some "neko" }].set 0
        (updated_entry ([{ word := some "cat", meaning_ja := some "neko" }].getD 0 default)
          (fun lb => if lb = "Word" then some "Cat" else none)
          "2024-02-02T00:00:00+00:00" "#2"))).all
      (fun e => !(entryKey e ==
          pyLower (extract_word (fun lb => if lb = "Word" then some "Cat" else none))) ||
        (e.word == some
          (extract_word (fun lb => if lb = "Word" then some "Cat" else none)))) = true) := by
  have h := ci_match_updates_single_record
    (fun lb => if lb = "Word" then some "Cat" else none)
    [{ word := some "cat", meaning_ja := some "neko" }]
    "2024-02-02T00:00:00+00:00" "#2"
    (by decide) (by decide) (by decide)
  exact ⟨h.1, h.2 _ (by decide)⟩

/-- C4: on the update path, each scalar field of the matched entry is
overwritten only when the incoming value is non-empty, and each list field
is replaced (with the parsed list) only when the incoming raw text is
non-blank; an omitted or placeholder field leaves the stored value
unchanged. The updated entry is what gets persisted. -/
theorem update_preserves_omitted_fields (body : String → Option String) (items : List Entry)
    (now_iso source : String) (idx : Nat)
    (hw : extract_word body ≠ "")
    (hidx : find_index items (extract_word body) = some idx) :
    (mainRun body items now_iso source).savedJson =
      some (sortItems (items.set idx (updated_entry (items.getD idx default) body now_iso source))) ∧
    updated_entry (items.getD idx default) body now_iso source ∈
      sortItems (items.set idx (updated_entry (items.getD idx default) body now_iso source)) ∧
    (updated_entry (items.getD idx default) body now_iso source).part_of_speech =
      (if extract_pos body ≠ "" then some (extract_pos body)
       else (items.getD idx default).part_of_speech) ∧
    (updated_entry (items.getD idx default) body now_iso source).other_spelling =
      (if extract_other body ≠ "" then some (extract_other body)
       else (items.getD idx default).other_spelling) ∧
    (updated_entry (items.getD idx default) body now_iso source).pronunciation =
      (if extract_pron body ≠ "" then some (extract_pron body)
       else (items.getD idx default).pronunciation) ∧
    (updated_entry (items.getD idx default) body now_iso source).meaning_ja =
      (if extract_meaning body ≠ "" then some (extract_meaning body)
       else (items.getD idx default).meaning_ja) ∧
    (updated_entry (items.getD idx default) body now_iso source).notes =
      (if extract_notes body ≠ "" then some (extract_notes body)
       else (items.getD idx default).notes) ∧
    (updated_entry (items.getD idx default) body now_iso source).examples =
      (if pyStrip (extract_examples_raw body) ≠ ""
       then some (parse_examples (extract_examples_raw body))
       else (items.getD idx default).examples) ∧
    (updated_entry (items.getD idx default) body now_iso source).synonyms =
      (if pyStrip (extract_syn_raw body) ≠ ""
       then some (split_csv_like (extract_syn_raw body))
       else (items.getD idx default).synonyms) ∧
    (updated_entry (items.getD idx default) body now_iso source).tags =
      (if pyStrip (extract_tags_raw body) ≠ ""
       then some (split_csv_like (extract_tags_raw body))
       else (items.getD idx default).tags) := by
  obtain ⟨hlt, _⟩ := find_index_some hidx
  refine ⟨by rw [mainRun_update_shape body items now_iso source idx hw hidx],
    (sortItems_perm _).mem_iff.mpr (List.mem_set items idx (by simpa using hlt) _),
    rfl, rfl, rfl, rfl, rfl, ?_, ?_, ?_⟩
  · by_cases h : pyStrip (extract_examples_raw body) ≠ "" <;>
      simp [updated_entry, update_entry, incoming_examples, h]
  · by_cases h : pyStrip (extract_syn_raw body) ≠ "" <;>
      simp [updated_entry, update_entry, incoming_synonyms, h]
  · by_cases h : pyStrip (extract_tags_raw body) ≠ "" <;>
      simp [updated_entry, update_entry, incoming_tags, h]

/-- Witness for C4: an entry with `tags = ["a","b"]` receives a submission
whose Tags field is omitted and whose Part of speech is "noun": the stored
tags survive, the part of speech is overwritten, and the updated entry is
persisted. -/
theorem update_preserves_omitted_fields_witness :
    (updated_entry
      ([({ word := some "cat", part_of_speech := some "verb", meaning_ja := some "neko",
            tags := some ["a", "b"] } : Entry)].getD 0 default)
      (fun lb => if lb = "Word" then some "cat" else
        if lb = "Part of speech" then some "noun" else none)
      "2024-03-03T00:00:00+00:00" "#3").tags = some ["a", "b"] ∧
    (updated_entry
      ([({ word := some "cat", part_of_speech := some "verb", meaning_ja := some "neko",
            tags := some ["a", "b"] } : Entry)].getD 0 default)
      (fun lb => if lb = "Word" then some "cat" else
        if lb = "Part of speech" then some "noun" else none)
      "2024-03-03T00:00:00+00:00" "#3").part_of_speech = some "noun" ∧
    (mainRun
      (fun lb => if lb = "Word" then some "cat" else
        if lb = "Part of speech" then some "noun" else none)
      [({ word := some "cat", part_of_speech := some "verb", meaning_ja := some "neko",
            tags := some ["a", "b"] } : Entry)]
      "2024-03-03T00:00:00+00:00" "#3").savedJson =
      some (sortItems
        ([({ word := some "cat", part_of_speech := some "verb", meaning_ja := some "neko",
              tags := some ["a", "b"] } : Entry)].set 0
          (updated_entry
            ([({ word := some "cat", part_of_speech := some "verb", meaning_ja := some "neko",
                  tags := some ["a", "b"] } : Entry)].getD 0 default)
            (fun lb => if lb = "Word" then some "cat" else
              if lb = "Part of speech" then some "noun" else none)
            "2024-03-03T00:00:00+00:00" "#3"))) := by
  have h := update_preserves_omitted_fields
    (fun lb => if lb = "Word" then some "cat" else
      if lb = "Part of speech" then some "noun" else none)
    [({ word := some "cat", part_of_speech := some "verb", meaning_ja := some "neko",
          tags := some ["a", "b"] } : Entry)]
    "2024-03-03T00:00:00+00:00" "#3" 0 (by decide) (by decide)
  refine ⟨?_, ?_, h.1⟩
  · rw [h.2.2.2.2.2.2.2.2.2]
    decide
  · rw [h.2.2.1]
    decide

/-- C5: submitting an identical field set twice for a previously absent word
reports "added" then "updated"; after the second run the persisted
collection holds exactly one copy of the entry created by the first run
with only `source_issue` changed to the second submission's identifier,
every entry under that case-insensitive key is that entry, and its
`created_at` still carries the first run's timestamp. -/
theorem resubmission_added_then_updated (body : String → Option String) (items : List Entry)
    (now1 source1 now2 source2 : String)
    (hw : extract_word body ≠ "")
    (hm : extract_meaning body ≠ "")
    (hnone : find_index items (extract_word body) = none)
    (hnow : now1 ≠ "") :
    (mainRun body items now1 source1).status = some "added" ∧
    ∀ items1, (mainRun body items now1 source1).savedJson = some items1 →
      (mainRun body items1 now2 source2).status = some "updated" ∧
      ∀ items2, (mainRun body items1 now2 source2).savedJson = some items2 →
        items2.countP (fun e =>
          e == { incoming_entry body now1 source1 with source_issue := some source2 }) = 1 ∧
        items2.all (fun e => !(entryKey e == pyLower (extract_word body)) ||
          (e == { incoming_entry body now1 source1 with source_issue := some source2 })) = true ∧
        ({ incoming_entry body now1 source1 with source_issue := some source2 }).created_at
          = some now1 := by
  have h1 := mainRun_added_shape body items now1 source1 hw hnone hm
  rw [h1]
  refine ⟨rfl, ?_⟩
  intro items1 h1j
  simp only [Option.some.injEq] at h1j
  subst h1j
  have hk1 : entryKey (incoming_entry body now1 source1) = pyLower (extract_word body) :=
    entryKey_incoming body now1 source1
  have hnomatch : ∀ e ∈ items, entryKey e ≠ pyLower (extract_word body) := by
    rw [find_index_none_iff, extract_word_stripped] at hnone
    exact hnone
  have hperm : (sortItems (items ++ [incoming_entry body now1 source1])).Perm
      (items ++ [incoming_entry body now1 source1]) := sortItems_perm _
  have he1mem : incoming_entry body now1 source1 ∈
      sortItems (items ++ [incoming_entry body now1 source1]) :=
    hperm.mem_iff.mpr (by simp)
  have hmemkey : ∀ e ∈ sortItems (items ++ [incoming_entry body now1 source1]),
      entryKey e = pyLower (extract_word body) → e = incoming_entry body now1 source1 := by
    intro e he hke
    rcases List.mem_append.mp (hperm.subset he) with hin | hin
    · exact absurd hke (hnomatch e hin)
    · simpa using hin
  cases hfi : find_index (sortItems (items ++ [incoming_entry body now1 source1]))
      (extract_word body) with
  | none =>
    rw [find_index_none_iff, extract_word_stripped] at hfi
    exact absurd hk1 (hfi _ he1mem)
  | some idx =>
    obtain ⟨hlt, hkey⟩ := find_index_some hfi
    rw [extract_word_stripped] at hkey
    have hidx_e1 : (sortItems (items ++ [incoming_entry body now1 source1])).get ⟨idx, hlt⟩ =
        incoming_entry body now1 source1 :=
      hmemkey _ (List.get_mem _ _ _) hkey
    have hcnt1 : (sortItems (items ++ [incoming_entry body now1 source1])).countP
        (fun x => x == incoming_entry body now1 source1) = 1 := by
      rw [hperm.countP_eq, List.countP_append]
      have hz : items.countP (fun x => x == incoming_entry body now1 source1) = 0 := by
        rw [List.countP_eq_zero]
        intro b hb hbeq
        rw [beq_iff_eq] at hbeq
        rw [hbeq] at hb
        exact hnomatch _ hb hk1
      simp [hz]
    have hother : ∀ j, (hj : j < (sortItems (items ++ [incoming_entry body now1 source1])).length) →
        j ≠ idx →
        entryKey ((sortItems (items ++ [incoming_entry body now1 source1])).get ⟨j, hj⟩) ≠
          pyLower (extract_word body) := by
      intro j hj hne hke
      have hej := hmemkey _ (List.get_mem _ _ _) hke
      have h2 := two_le_countP (fun x => x == incoming_entry body now1 source1)
        (sortItems (items ++ [incoming_entry body now1 source1])) j idx hj hlt hne
        (by rw [hej]; simp) (by rw [hidx_e1]; simp)
      omega
    have hgetd : (sortItems (items ++ [incoming_entry body now1 source1])).getD idx default =
        incoming_entry body now1 source1 := by
      rw [List.getD_eq_getElem?_getD, List.getElem?_eq_getElem hlt, Option.getD_some]
      exact hidx_e1
    have hupd : updated_entry
        ((sortItems (items ++ [incoming_entry body now1 source1])).getD idx default)
        body now2 source2 =
        { incoming_entry body now1 source1 with source_issue := some source2 } := by
      rw [hgetd]
      exact updated_entry_incoming body now1 source1 now2 source2 hnow
    have h2main := mainRun_update_shape body
      (sortItems (items ++ [incoming_entry body now1 source1])) now2 source2 idx hw hfi
    rw [h2main]
    refine ⟨rfl, ?_⟩
    intro items2 h2j
    simp only [Option.some.injEq] at h2j
    subst h2j
    rw [hupd]
    have hkey2 : entryKey { incoming_entry body now1 source1 with source_issue := some source2 } =
        pyLower (extract_word body) := hk1
    refine ⟨?_, ?_, rfl⟩
    · rw [(sortItems_perm _).countP_eq]
      refine countP_set_eq_one _ _ idx hlt _ (by simp) ?_
      intro j hj hne
      rw [beq_eq_false_iff_ne]
      intro hbeq
      exact hother j hj hne (by rw [hbeq]; exact hkey2)
    · rw [List.all_eq_true]
      intro e he
      have he2 := (sortItems_perm _).mem_iff.mp he
      by_cases hk : entryKey e = pyLower (extract_word body)
      · have := eq_of_mem_set_of_unique
          (fun x => entryKey x == pyLower (extract_word body)) _ idx
          { incoming_entry body now1 source1 with source_issue := some source2 }
          (fun j hj hne => by
            simp only [beq_eq_false_iff_ne, ne_eq]
            exact hother j hj hne)
          e he2 (by simp [hk])
        simp [this]
      · simp [hk]

/-- Witness for C5: the same "cat" submission ingested twice starting from
the empty collection. -/
theorem resubmission_added_then_updated_witness :
    (mainRun
      (fun lb => if lb = "Word" then some "cat" else
        if lb = "Meaning (Japanese)" then some "neko" else none)
      [] "2024-01-01T00:00:00+00:00" "#1").status = some "added" ∧
    ((mainRun
      (fun lb => if lb = "Word" then some "cat" else
        if lb = "Meaning (Japanese)" then some "neko" else none)
      (sortItems ([] ++ [incoming_entry
        (fun lb => if lb = "Word" then some "cat" else
          if lb = "Meaning (Japanese)" then some "neko" else none)
        "2024-01-01T00:00:00+00:00" "#1"]))
      "2024-05-05T00:00:00+00:00" "#2").status = some "updated" ∧
     ((sortItems ((sortItems ([] ++ [incoming_entry
          (fun lb => if lb = "Word" then some "cat" else
            if lb = "Meaning (Japanese)" then some "neko" else none)
          "2024-01-01T00:00:00+00:00" "#1"])).set 0
        (updated_entry
          ((sortItems ([] ++ [incoming_entry
            (fun lb => if lb = "Word" then some "cat" else
              if lb = "Meaning (Japanese)" then some "neko" else none)
            "2024-01-01T00:00:00+00:00" "#1"])).getD 0 default)
          (fun lb => if lb = "Word" then some "cat" else
            if lb = "Meaning (Japanese)" then some "neko" else none)
          "2024-05-05T00:00:00+00:00" "#2"))).countP (fun e =>
        e == { incoming_entry
          (fun lb => if lb = "Word" then some "cat" else
            if lb = "Meaning (Japanese)" then some "neko" else none)
          "2024-01-01T00:00:00+00:00" "#1" with source_issue := some "#2" }) = 1 ∧
      (sortItems ((sortItems ([] ++ [incoming_entry
          (fun lb => if lb = "Word" then some "cat" else
            if lb = "Meaning (Japanese)" then some "neko" else none)
          "2024-01-01T00:00:00+00:00" "#1"])).set 0
        (updated_entry
          ((sortItems ([] ++ [incoming_entry
            (fun lb => if lb = "Word" then some "cat" else
              if lb = "Meaning (Japanese)" then some "neko" else none)
            "2024-01-01T00:00:00+00:00" "#1"])).getD 0 default)
          (fun lb => if lb = "Word" then some "cat" else
            if lb = "Meaning (Japanese)" then some "neko" else none)
          "2024-05-05T00:00:00+00:00" "#2"))).all (fun e =>
        !(entryKey e == pyLower (extract_word
          (fun lb => if lb = "Word" then some "cat" else
            if lb = "Meaning (Japanese)" then some "neko" else none))) ||
        (e == { incoming_entry
          (fun lb => if lb = "Word" then some "cat" else
            if lb = "Meaning (Japanese)" then some "neko" else none)
          "2024-01-01T00:00:00+00:00" "#1" with source_issue := some "#2" })) = true ∧
      ({ incoming_entry
          (fun lb => if lb = "Word" then some "cat" else
            if lb = "Meaning (Japanese)" then some "neko" else none)
          "2024-01-01T00:00:00+00:00" "#1" with source_issue := some "#2" }).created_at =
        some "2024-01-01T00:00:00+00:00")) := by
  have h := resubmission_added_then_updated
    (fun lb => if lb = "Word" then some "cat" else
      if lb = "Meaning (Japanese)" then some "neko" else none)
    [] "2024-01-01T00:00:00+00:00" "#1" "2024-05-05T00:00:00+00:00" "#2"
    (by decide) (by decide) rfl (by decide)
  refine ⟨h.1, ?_⟩
  have h2 := h.2 _ rfl
  exact ⟨h2.1, h2.2 _ (by decide)⟩

end Ingest
